import Mathlib

/-!
# Meilisearch product catalogue: ingestion script and HTTP handlers

A shallow embedding of `cmd/main.go` (data cleaning, batched upload, task
polling) and of `handler/product_handler.go` (search and get-by-id
handlers), followed by the properties proved about them.

Conventions of the embedding.

* A Go `map[string]interface{}` decoded from JSON is an association list of
  field name and dynamically typed value; `item[key]` is `List.lookup`.
* The external search service is an oracle: the k-th call of an operation
  receives the k-th answer of a response stream (`Nat → answer`).  Every
  externally visible action of a run is recorded, in order, as an `Event`.
* Unbounded Go loops take a fuel argument; `none` means the fuel ran out
  before the loop finished.
* Go `int` values that occur (slice indices, batch numbers) stay far below
  `2 ^ 63` for the batch size `1000` of the source, so they are natural
  numbers here; `int64` task identifiers are integers.
-/

namespace Meili

/-! ## Data model -/

/-- A value of Go type `interface{}` as produced by `encoding/json`:
`nil`, `bool`, `float64` (kept as its bit pattern), `string`,
`[]interface{}` or `map[string]interface{}`. -/
inductive Value where
  | null
  | bool (b : Bool)
  | number (bits : Nat)
  | string (s : String)
  | array (xs : List Value)
  | object (fields : List (String × Value))

/-- One product record: `map[string]interface{}`. -/
abbrev Record := List (String × Value)

/-! ## `strings.ToUpper` -/

/-- `unicode.ToUpper` on one rune.  ASCII runes are handled by the explicit
range test of the Go library; every other rune goes through the Unicode case
table, which is the argument `caseTable`. -/
def upperRune (caseTable : Char → Char) (c : Char) : Char :=
  if c.toNat < 128 then
    if 97 ≤ c.toNat ∧ c.toNat ≤ 122 then Char.ofNat (c.toNat - 32) else c
  else caseTable c

/-- `strings.ToUpper`: every rune of the string mapped by `unicode.ToUpper`. -/
def ToUpper (caseTable : Char → Char) (s : String) : String :=
  String.mk (s.data.map (upperRune caseTable))

/-- The one fact about the Unicode upper-case table that the cleaning step
depends on: no rune outside ASCII has `N`, `U` or `L` as its upper case.
(In Unicode the only non-ASCII runes with an ASCII upper case are U+0131,
which maps to `I`, and U+017F, which maps to `S`.) -/
def TableAvoidsNUL (caseTable : Char → Char) : Prop :=
  ∀ c : Char, 128 ≤ c.toNat →
    caseTable c ≠ 'N' ∧ caseTable c ≠ 'U' ∧ caseTable c ≠ 'L'

/-- A small stand-in for the Unicode table with its two ASCII-valued
entries; every other rune is left alone. -/
def sampleCaseTable (c : Char) : Char :=
  if c.toNat = 305 then 'I' else if c.toNat = 383 then 'S' else c

/-! ## `cleanData` (cmd/main.go, lines 19-38) -/

/-- The body of the inner loop of `cleanData` for one `key, value` pair: the
value stored under `key` once the iteration is over.  Both tests read the
loop variable `value`, never the updated map entry. -/
def cleanField (caseTable : Char → Char) (key : String) (value : Value) : Value :=
  let afterFirst : Value :=
    match value with
    | .string str => if ToUpper caseTable str = "NULL" then .null else value
    | _ => value
  if key = "id" ∨ key = "category_id" ∨ key = "created_by" ∨ key = "updated_by"
      ∨ key = "is_active" then
    match value with
    | .string str => if str = "NULL" then .null else afterFirst
    | _ => afterFirst
  else afterFirst

/-- The inner loop of `cleanData` over one record.  Each iteration writes
only the entry of its own key, so the order in which Go ranges over the map
does not matter. -/
def cleanItem (caseTable : Char → Char) (item : Record) : Record :=
  item.map (fun kv => (kv.1, cleanField caseTable kv.1 kv.2))

/-- `cleanData`: the records are updated in place and the same slice is
returned. -/
def cleanData (caseTable : Char → Char) (data : List Record) : List Record :=
  data.map (cleanItem caseTable)

/-- A string equals `NULL` when case is ignored: letter by letter it is
`n`, `u`, `l`, `l` once upper-case letters are lowered. -/
def EqualsNULLIgnoringCase (s : String) : Prop :=
  s.data.map Char.toLower = ['n', 'u', 'l', 'l']

instance (s : String) : Decidable (EqualsNULLIgnoringCase s) := by
  unfold EqualsNULLIgnoringCase; infer_instance

/-- The value is a string that equals `NULL` ignoring case. -/
def IsNullMarker : Value → Prop
  | .string s => EqualsNULLIgnoringCase s
  | _ => False

instance : DecidablePred IsNullMarker := fun v =>
  match v with
  | .string s => inferInstanceAs (Decidable (EqualsNULLIgnoringCase s))
  | .null => isFalse (fun h => h)
  | .bool _ => isFalse (fun h => h)
  | .number _ => isFalse (fun h => h)
  | .array _ => isFalse (fun h => h)
  | .object _ => isFalse (fun h => h)

/-- A two-record collection used to exercise `cleanData`. -/
def sampleData : List Record :=
  [[("id", .number 1), ("mrp", .string "Null"), ("name", .string "Glue")],
   [("id", .string "NULL"), ("name", .string "nullable")]]

/-! ## The ingestion run (cmd/main.go, lines 74-186) -/

/-- An externally visible action of the ingestion script, in the order in
which the script performs it. -/
inductive Event where
  /-- Line 94, `index.AddDocuments(sku[i:end], "id")`. -/
  | addDocuments (documents : List Record) (primaryKey : String)
  /-- Lines 104 and 126, `time.Sleep`, in milliseconds. -/
  | sleep (ms : Nat)
  /-- Line 114, `client.GetTask(lastTaskUID)`. -/
  | getTask (taskUID : Int)
  /-- Line 131, `index.GetStats()`. -/
  | getStats
  /-- Lines 143, 157 and 171, `index.Search(query, {Limit: limit})`. -/
  | search (query : String) (limit : Int)

/-- The fields of `meilisearch.Task` that the script reads. -/
structure Task where
  Status : String
  Error : String

/-- The answers of the search service during one run: the k-th call of
`AddDocuments` yields an error or the `TaskUID` of the accepted task, the
k-th call of `GetTask` an error or the task. -/
structure Service where
  addDocuments : Nat → Except String Int
  getTask : Nat → Except String Task

/-- Line 79, `totalBatches := (len(sku) + batchSize - 1) / batchSize`. -/
def totalBatches (batchSize len : Nat) : Nat :=
  (len + batchSize - 1) / batchSize

/-- The Go slice expression `s[i:j]` for `i ≤ j ≤ len(s)`. -/
def slice (s : List Record) (i j : Nat) : List Record :=
  (s.drop i).take (j - i)

/-- How the upload loop ends. -/
inductive UploadResult where
  /-- Line 96, `log.Fatalf("Failed to upload batch %d-%d: %v", i, end, err)`:
  the process exits. -/
  | fatal (i end_ : Nat) (err : String)
  /-- The loop condition failed; the payload is `lastTaskUID`. -/
  | done (lastTaskUID : Int)

/-- The upload loop of lines 85-106, started at index `i` after `calls`
earlier submissions with the current value of `lastTaskUID`.  The result is
the list of actions performed from here on and the way the loop ended. -/
def uploadLoop (batchSize : Nat) (sku : List Record)
    (addDocuments : Nat → Except String Int) :
    Nat → Nat → Nat → Int → Option (List Event × UploadResult)
  | 0, _, _, _ => none
  | fuel + 1, i, calls, lastTaskUID =>
    if i < sku.length then
      let end_ := if i + batchSize > sku.length then sku.length else i + batchSize
      let submit := Event.addDocuments (slice sku i end_) "id"
      match addDocuments calls with
      | .error err => some ([submit], .fatal i end_ err)
      | .ok taskUID =>
        let pause := if i + batchSize < sku.length then [Event.sleep 100] else []
        match uploadLoop batchSize sku addDocuments fuel (i + batchSize) (calls + 1) taskUID with
        | none => none
        | some (rest, res) => some (submit :: (pause ++ rest), res)
    else some ([], .done lastTaskUID)

/-- How the polling loop ends: the three `break` statements of lines
117, 121 and 124. -/
inductive PollOutcome where
  /-- Line 116, "Could not get task status". -/
  | queryError (err : String)
  /-- Line 120, "Indexing complete!". -/
  | succeeded
  /-- Line 123, "Indexing failed", with `taskStatus.Error`. -/
  | failed (detail : String)

/-- The polling loop of lines 113-127 from the k-th status query on. -/
def pollLoop (getTask : Nat → Except String Task) (lastTaskUID : Int) :
    Nat → Nat → Option (List Event × PollOutcome)
  | 0, _ => none
  | fuel + 1, k =>
    match getTask k with
    | .error err => some ([Event.getTask lastTaskUID], .queryError err)
    | .ok taskStatus =>
      if taskStatus.Status = "succeeded" then
        some ([Event.getTask lastTaskUID], .succeeded)
      else if taskStatus.Status = "failed" then
        some ([Event.getTask lastTaskUID], .failed taskStatus.Error)
      else
        match pollLoop getTask lastTaskUID fuel (k + 1) with
        | none => none
        | some (rest, out) =>
          some (Event.getTask lastTaskUID :: Event.sleep 500 :: rest, out)

/-- How a run of the script ends. -/
inductive Exit where
  /-- Division by zero at line 79 (only when `batchSize` is zero). -/
  | panicked
  /-- A `log.Fatalf` of the upload loop ended the process. -/
  | fatal (i end_ : Nat) (err : String)
  /-- The script ran to its last line; the payload is the outcome of the
  polling loop, if that loop was entered. -/
  | finished (poll : Option PollOutcome)

/-- The actions of lines 130-183 that follow the polling step: the stats
query and the three test searches.  Their answers are only printed. -/
def afterPolling : List Event :=
  [Event.getStats, Event.search "FEVICOL" 5, Event.search "Adhesives" 3,
   Event.search "ADH1" 1]

/-- Lines 74-186 of `main` with the local `batchSize` as an argument: `sku`
is the collection decoded from `sku.json` after the start-up steps of lines
41-72 succeeded. -/
def mainFrom (caseTable : Char → Char) (batchSize : Nat) (service : Service)
    (sku : List Record) (fuel : Nat) : Option (List Event × Exit) :=
  let sku := cleanData caseTable sku
  if batchSize = 0 then some ([], .panicked)
  else
    match uploadLoop batchSize sku service.addDocuments fuel 0 0 0 with
    | none => none
    | some (uploaded, .fatal i end_ err) => some (uploaded, .fatal i end_ err)
    | some (uploaded, .done lastTaskUID) =>
      if lastTaskUID ≠ 0 then
        match pollLoop service.getTask lastTaskUID fuel 0 with
        | none => none
        | some (polled, out) => some (uploaded ++ polled ++ afterPolling, .finished (some out))
      else some (uploaded ++ afterPolling, .finished none)

/-- The script as written: `batchSize := 1000` (line 78). -/
def main (caseTable : Char → Char) (service : Service) (sku : List Record)
    (fuel : Nat) : Option (List Event × Exit) :=
  mainFrom caseTable 1000 service sku fuel

/-! ### Observations on a trace -/

/-- The batches submitted, in submission order. -/
def submitted : List Event → List (List Record)
  | [] => []
  | .addDocuments documents _ :: rest => documents :: submitted rest
  | _ :: rest => submitted rest

/-- The task identifiers queried, in query order. -/
def queried : List Event → List Int
  | [] => []
  | .getTask taskUID :: rest => taskUID :: queried rest
  | _ :: rest => queried rest

/-- The pauses taken, in order, in milliseconds. -/
def pauses : List Event → List Nat
  | [] => []
  | .sleep ms :: rest => ms :: pauses rest
  | _ :: rest => pauses rest

/-- The number of stats queries in a trace. -/
def statsQueries : List Event → Nat
  | [] => 0
  | .getStats :: rest => statsQueries rest + 1
  | _ :: rest => statsQueries rest

/-- The j-th batch of the partition that starts at index `i`: the records
at indices `i + j * batchSize` up to, but excluding, `i + (j + 1) * batchSize`
(or up to the end of the collection). -/
def batchAt (batchSize : Nat) (sku : List Record) (i j : Nat) : List Record :=
  (sku.drop (i + j * batchSize)).take batchSize

/-- The actions of an upload that submits the first `n` batches from index
`i` on: the submissions, with one pause of 100 ms between neighbours. -/
def uploadTrace (batchSize : Nat) (sku : List Record) (i n : Nat) : List Event :=
  List.intersperse (Event.sleep 100)
    ((List.range n).map (fun j => Event.addDocuments (batchAt batchSize sku i j) "id"))

/-- A status answer that ends the polling loop: the query failed, or the
task is reported as succeeded or as failed. -/
def Terminal : Except String Task → Prop
  | .error _ => True
  | .ok taskStatus => taskStatus.Status = "succeeded" ∨ taskStatus.Status = "failed"

/-! ### Sample inputs -/

/-- Five one-field records. -/
def fiveRecords : List Record :=
  [[("id", .number 1)], [("id", .number 2)], [("id", .number 3)], [("id", .number 4)],
   [("id", .number 5)]]

/-- A service that accepts every batch, giving the k-th submission the task
identifier `k + 10`, and reports the task as processing twice before it
reports success. -/
def acceptingService : Service where
  addDocuments := fun k => .ok (Int.ofNat k + 10)
  getTask := fun k =>
    if k < 2 then .ok { Status := "processing", Error := "" }
    else .ok { Status := "succeeded", Error := "" }

/-- A service that accepts the first submission and rejects the second. -/
def rejectingService : Service where
  addDocuments := fun k => if k = 1 then .error "payload too large" else .ok (Int.ofNat k + 10)
  getTask := fun _ => .ok { Status := "succeeded", Error := "" }

/-- A service on a fresh instance: its first task has identifier 0, and the
task is still being processed whenever it is asked about. -/
def freshService : Service where
  addDocuments := fun k => .ok (Int.ofNat k)
  getTask := fun _ => .ok { Status := "processing", Error := "" }

/-! ## The HTTP handlers (handler/product_handler.go, dto/response.go) -/

/-- The decoded query string of a request, `r.URL.Query()`: the pairs of
parameter name and value in the order in which they appear. -/
abbrev Values := List (String × String)

/-- `url.Values.Get`: the first value of the parameter, or the empty string
when the parameter is absent. -/
def Get (values : Values) (key : String) : String :=
  (values.lookup key).getD ""

/-- `strconv.Atoi` on a 64-bit platform: an optional sign followed by one or
more decimal digits whose value fits `int64`; `none` stands for a non-nil
error. -/
def Atoi (s : String) : Option Int :=
  let signed : Bool × List Char :=
    match s.data with
    | '-' :: rest => (true, rest)
    | '+' :: rest => (false, rest)
    | cs => (false, cs)
  if signed.2.isEmpty || !signed.2.all Char.isDigit then none
  else
    let un : Nat := signed.2.foldl (fun n ch => n * 10 + (ch.toNat - 48)) 0
    let n : Int := if signed.1 then -(Int.ofNat un) else Int.ofNat un
    if n < -(2 : Int) ^ 63 ∨ (2 : Int) ^ 63 ≤ n then none else some n

/-- `strconv.Itoa`: the decimal form of an integer. -/
def Itoa (n : Int) : String := toString n

/-- The fields of `meilisearch.SearchRequest` that the handlers set; a nil
`Filter` is `none`. -/
structure SearchRequest where
  Filter : Option String
  Limit : Int
  Offset : Int

/-- `dto.ErrorResponse` without its `Timestamp`, which is the time of the
call. -/
structure ErrorResponse where
  Success : Bool
  Error : String
  Message : String
  Code : String

/-- `dto.NewErrorResponse`. -/
def NewErrorResponse (error message code : String) : ErrorResponse :=
  { Success := false, Error := error, Message := message, Code := code }

/-- The fields of `dto.Product` that `GetProductByID` sets; all other fields
keep their zero value. -/
structure Product where
  ID : Int
  SKU : String
  Name : String
  CategoryID : Int
  Description : String
  Status : String
  CategoryName : String

/-- `dto.ProductSearchResponse`. -/
structure ProductSearchResponse where
  Hits : List Product
  TotalHits : Int
  Processing : Bool
  Query : String
  Limit : Int
  Offset : Int

/-- The `Data` of a success response, which is an `interface{}` in Go. -/
inductive ResponseData where
  | searchResult (r : ProductSearchResponse)
  | product (p : Product)

/-- `dto.SuccessResponse` without its `Timestamp`. -/
structure SuccessResponse where
  Success : Bool
  Message : String
  Data : ResponseData

/-- `dto.NewSuccessResponse`. -/
def NewSuccessResponse (message : String) (data : ResponseData) : SuccessResponse :=
  { Success := true, Message := message, Data := data }

/-- The JSON document of a response. -/
inductive Body where
  | failure (r : ErrorResponse)
  | success (r : SuccessResponse)

/-- What `writeJSONResponse` sends: the status code and the encoded body. -/
structure Response where
  statusCode : Nat
  body : Body

/-- `writeJSONResponse`. -/
def writeJSONResponse (statusCode : Nat) (data : Body) : Response :=
  { statusCode := statusCode, body := data }

/-- The two type assertions `result.(map[string]interface{})` and
`hits["hits"].([]interface{})` of lines 74-75 and 117-118: the array stored
under `hits` when the search answer is an object that has one. -/
def hitsOf : Value → Option (List Value)
  | .object hits =>
    match hits.lookup "hits" with
    | some (.array hitsList) => some hitsList
    | _ => none
  | _ => none

/-- One call of the index search operation: the query text and the request. -/
abbrev SearchCall := String × SearchRequest

/-- `ProductHandler.SearchProducts`.  `search` is the `Search` method of the
index, `values` the query parameters of the request; the result is the list
of search calls made and the response written. -/
def SearchProducts (search : String → SearchRequest → Except String Value)
    (values : Values) : List SearchCall × Response :=
  let query := Get values "q"
  if query = "" then
    ([], writeJSONResponse 400 (.failure
      (NewErrorResponse "BAD_REQUEST" "Query parameter 'q' is required" "MISSING_QUERY")))
  else
    let limit : Int :=
      match Atoi (Get values "limit") with
      | none => 20
      | some limit => if limit ≤ 0 then 20 else limit
    let offset : Int :=
      match Atoi (Get values "offset") with
      | none => 0
      | some offset => if offset < 0 then 0 else offset
    let searchRequest : SearchRequest := { Filter := none, Limit := limit, Offset := offset }
    match search query searchRequest with
    | .error _ =>
      ([(query, searchRequest)], writeJSONResponse 500 (.failure
        (NewErrorResponse "SEARCH_FAILED" "Search operation failed" "INTERNAL_ERROR")))
    | .ok result =>
      let totalHits : Int :=
        match hitsOf result with
        | some hitsList => Int.ofNat hitsList.length
        | none => 0
      let searchRes : ProductSearchResponse :=
        { Hits := [], TotalHits := totalHits, Processing := false, Query := query,
          Limit := limit, Offset := offset }
      ([(query, searchRequest)], writeJSONResponse 200 (.success
        (NewSuccessResponse "Search completed successfully" (.searchResult searchRes))))

/-- `ProductHandler.GetProductByID`. -/
def GetProductByID (search : String → SearchRequest → Except String Value)
    (values : Values) : List SearchCall × Response :=
  let idStr := Get values "id"
  if idStr = "" then
    ([], writeJSONResponse 400 (.failure
      (NewErrorResponse "BAD_REQUEST" "Product ID is required" "MISSING_ID")))
  else
    match Atoi idStr with
    | none =>
      ([], writeJSONResponse 400 (.failure
        (NewErrorResponse "BAD_REQUEST" "Invalid product ID" "INVALID_ID")))
    | some id =>
      let searchRequest : SearchRequest :=
        { Filter := some ("id = " ++ Itoa id), Limit := 1, Offset := 0 }
      match search "" searchRequest with
      | .error _ =>
        ([("", searchRequest)], writeJSONResponse 500 (.failure
          (NewErrorResponse "SEARCH_FAILED" "Search operation failed" "INTERNAL_ERROR")))
      | .ok result =>
        let notFound : List SearchCall × Response :=
          ([("", searchRequest)], writeJSONResponse 404 (.failure
            (NewErrorResponse "NOT_FOUND" "Product not found" "PRODUCT_NOT_FOUND")))
        match hitsOf result with
        | some hitsList =>
          if hitsList.length > 0 then
            let product : Product :=
              { ID := id, SKU := "Found-SKU", Name := "Found Product", CategoryID := 1,
                Description := "Product found in search", Status := "Active",
                CategoryName := "Found Category" }
            ([("", searchRequest)], writeJSONResponse 200 (.success
              (NewSuccessResponse "Product retrieved successfully" (.product product))))
          else notFound
        | none => notFound

/-- The search answer has no hit: it is not a JSON object, or its `hits`
entry is missing, is not an array, or is an empty array. -/
def NoHit (result : Value) : Prop :=
  ∀ hitsList : List Value, hitsOf result = some hitsList → hitsList = []

/-- An index that answers every search with an empty list of hits. -/
def emptyIndex : String → SearchRequest → Except String Value :=
  fun _ _ => .ok (.object [("hits", .array []), ("query", .string "")])

/-- An index that answers every search with three raw hits. -/
def threeHitIndex : String → SearchRequest → Except String Value :=
  fun _ _ => .ok (.object [("hits", .array [.object [("id", .number 1)],
    .object [("id", .number 2)], .object [("id", .number 3)]])])

/-! ## Case mapping of single runes -/

/-- The ASCII branch of `upperRune`, which does not consult the table. -/
theorem upperRune_ascii (caseTable : Char → Char) (c : Char) (h : c.toNat < 128) :
    upperRune caseTable c
      = if 97 ≤ c.toNat ∧ c.toNat ≤ 122 then Char.ofNat (c.toNat - 32) else c := by
  simp [upperRune, h]

theorem ascii_upper_lower (c : Char) (h : c.toNat < 128) :
    ((if 97 ≤ c.toNat ∧ c.toNat ≤ 122 then Char.ofNat (c.toNat - 32) else c) = 'N'
        ↔ c.toLower = 'n') ∧
    ((if 97 ≤ c.toNat ∧ c.toNat ≤ 122 then Char.ofNat (c.toNat - 32) else c) = 'U'
        ↔ c.toLower = 'u') ∧
    ((if 97 ≤ c.toNat ∧ c.toNat ≤ 122 then Char.ofNat (c.toNat - 32) else c) = 'L'
        ↔ c.toLower = 'l') := by
  obtain ⟨n, hn⟩ : ∃ n, c.toNat = n := ⟨_, rfl⟩
  have hc : c = Char.ofNat n := by rw [← hn, Char.ofNat_toNat]
  rw [hn] at h
  subst hc
  clear hn
  interval_cases n <;> decide

theorem upperRune_iff (caseTable : Char → Char) (ht : TableAvoidsNUL caseTable) (c : Char) :
    (upperRune caseTable c = 'N' ↔ c.toLower = 'n') ∧
    (upperRune caseTable c = 'U' ↔ c.toLower = 'u') ∧
    (upperRune caseTable c = 'L' ↔ c.toLower = 'l') := by
  by_cases h : c.toNat < 128
  · rw [upperRune_ascii caseTable c h]
    exact ascii_upper_lower c h
  · have h128 : 128 ≤ c.toNat := Nat.le_of_not_lt h
    obtain ⟨h1, h2, h3⟩ := ht c h128
    have hlow : c.toLower = c := by
      unfold Char.toLower
      simp only []
      rw [if_neg]
      omega
    have hne : ∀ d : Char, d.toNat < 128 → c ≠ d := by
      intro d hd hcd
      rw [hcd] at h128
      omega
    simp only [upperRune, if_neg h, hlow]
    refine ⟨⟨fun e => absurd e h1, fun e => absurd e (hne _ (by decide))⟩,
      ⟨fun e => absurd e h2, fun e => absurd e (hne _ (by decide))⟩,
      ⟨fun e => absurd e h3, fun e => absurd e (hne _ (by decide))⟩⟩

theorem map_upper_eq_NULL_iff (caseTable : Char → Char) (ht : TableAvoidsNUL caseTable)
    (l : List Char) :
    l.map (upperRune caseTable) = ['N', 'U', 'L', 'L']
      ↔ l.map Char.toLower = ['n', 'u', 'l', 'l'] := by
  have hN := fun c => (upperRune_iff caseTable ht c).1
  have hU := fun c => (upperRune_iff caseTable ht c).2.1
  have hL := fun c => (upperRune_iff caseTable ht c).2.2
  rcases l with _ | ⟨a, _ | ⟨b, _ | ⟨c, _ | ⟨d, _ | ⟨e, t⟩⟩⟩⟩⟩ <;> simp [hN, hU, hL]

/-- The test of line 24 holds exactly for the strings that equal `NULL`
ignoring case. -/
theorem ToUpper_eq_NULL_iff (caseTable : Char → Char) (ht : TableAvoidsNUL caseTable)
    (s : String) : ToUpper caseTable s = "NULL" ↔ EqualsNULLIgnoringCase s := by
  have hlit : ("NULL" : String) = String.mk ['N', 'U', 'L', 'L'] := rfl
  unfold ToUpper EqualsNULLIgnoringCase
  rw [hlit, String.ext_iff]
  exact map_upper_eq_NULL_iff caseTable ht s.data

theorem sampleCaseTable_avoids : TableAvoidsNUL sampleCaseTable := by
  intro c hc
  have hne : ∀ d : Char, d.toNat < 128 → c ≠ d := by
    intro d hd hcd
    rw [hcd] at hc
    omega
  unfold sampleCaseTable
  refine ⟨?_, ?_, ?_⟩ <;> split_ifs <;> first | decide | exact hne _ (by decide)

/-- What one loop iteration of `cleanData` leaves under `key`. -/
theorem cleanField_eq (caseTable : Char → Char) (ht : TableAvoidsNUL caseTable)
    (key : String) (value : Value) :
    (IsNullMarker value → cleanField caseTable key value = Value.null) ∧
    (¬ IsNullMarker value → cleanField caseTable key value = value) := by
  cases value with
  | string str =>
    have hiff := ToUpper_eq_NULL_iff caseTable ht str
    have hlit : str = "NULL" → ToUpper caseTable str = "NULL" := by
      intro h
      rw [hiff, h]
      decide
    simp only [IsNullMarker, cleanField]
    constructor
    · intro hm
      have hu := hiff.2 hm
      simp [hu]
    · intro hm
      have hu : ¬ ToUpper caseTable str = "NULL" := fun h => hm (hiff.1 h)
      have hs : ¬ str = "NULL" := fun h => hu (hlit h)
      simp [hu, hs]
  | null => simp [IsNullMarker, cleanField]
  | bool b => simp [IsNullMarker, cleanField]
  | number n => simp [IsNullMarker, cleanField]
  | array xs => simp [IsNullMarker, cleanField]
  | object fs => simp [IsNullMarker, cleanField]

theorem cleanItem_keys (caseTable : Char → Char) (item : Record) :
    (cleanItem caseTable item).map Prod.fst = item.map Prod.fst := by
  simp [cleanItem, List.map_map, Function.comp_def]

theorem cleanItem_lookup (caseTable : Char → Char) (item : Record) (key : String) :
    (cleanItem caseTable item).lookup key
      = (item.lookup key).map (cleanField caseTable key) := by
  induction item with
  | nil => simp [cleanItem]
  | cons kv rest ih =>
    obtain ⟨k, v⟩ := kv
    unfold cleanItem at ih ⊢
    simp only [List.map_cons, List.lookup_cons]
    by_cases hk : key = k
    · subst hk
      simp
    · have hb : (key == k) = false := by simpa using hk
      simp only [hb]
      exact ih

/-- C2: `cleanData` keeps the number and order of the records and the field
names of each record; a field holding a string that equals `NULL` ignoring
case holds nil afterwards, and every other field keeps its value. -/
theorem cleanData_spec (caseTable : Char → Char) (ht : TableAvoidsNUL caseTable)
    (data : List Record) :
    (cleanData caseTable data).length = data.length ∧
    ∀ (i : Nat) (item : Record), data[i]? = some item →
      ∃ cleaned : Record, (cleanData caseTable data)[i]? = some cleaned ∧
        cleaned.map Prod.fst = item.map Prod.fst ∧
        ∀ (key : String) (value : Value), item.lookup key = some value →
          (IsNullMarker value → cleaned.lookup key = some Value.null) ∧
          (¬ IsNullMarker value → cleaned.lookup key = some value) := by
  refine ⟨by simp [cleanData], ?_⟩
  intro i item hi
  refine ⟨cleanItem caseTable item, by simp [cleanData, hi], cleanItem_keys caseTable item, ?_⟩
  intro key value hv
  have hf := cleanField_eq caseTable ht key value
  rw [cleanItem_lookup, hv]
  exact ⟨fun h => by simp [hf.1 h], fun h => by simp [hf.2 h]⟩

theorem cleanData_spec_witness :
    TableAvoidsNUL sampleCaseTable ∧
    ∃ cleaned : Record, (cleanData sampleCaseTable sampleData)[0]? = some cleaned ∧
      cleaned.lookup "mrp" = some Value.null ∧
      cleaned.lookup "name" = some (Value.string "Glue") := by
  obtain ⟨_, h⟩ := cleanData_spec sampleCaseTable sampleCaseTable_avoids sampleData
  obtain ⟨cleaned, hc, _, hf⟩ := h 0 _ rfl
  exact ⟨sampleCaseTable_avoids, cleaned, hc,
    (hf "mrp" (Value.string "Null") rfl).1 (by decide),
    (hf "name" (Value.string "Glue") rfl).2 (by decide)⟩

/-! ## The upload loop -/

theorem totalBatches_step (batchSize len i : Nat) (hB : 0 < batchSize) (hi : i < len) :
    totalBatches batchSize (len - i) = totalBatches batchSize (len - (i + batchSize)) + 1 := by
  unfold totalBatches
  by_cases h : i + batchSize ≤ len
  · have e : len - i + batchSize - 1 = (len - (i + batchSize) + batchSize - 1) + batchSize := by
      omega
    rw [e, Nat.add_div_right _ hB]
  · have e0 : len - (i + batchSize) = 0 := by omega
    have h1 : (len - i + batchSize - 1) / batchSize = 1 := by
      apply Nat.div_eq_of_lt_le
      · rw [Nat.one_mul]
        omega
      · have : (1 + 1) * batchSize = batchSize + batchSize := by ring
        omega
    have h0 : (0 + batchSize - 1) / batchSize = 0 := by
      apply Nat.div_eq_of_lt
      omega
    rw [e0, h1, h0]

theorem totalBatches_of_le (batchSize len i : Nat) (hB : 0 < batchSize) (hi : len ≤ i) :
    totalBatches batchSize (len - i) = 0 := by
  unfold totalBatches
  have e0 : len - i = 0 := by omega
  rw [e0]
  apply Nat.div_eq_of_lt
  omega

theorem slice_eq_batchAt (batchSize : Nat) (sku : List Record) (i : Nat) :
    slice sku i (if i + batchSize > sku.length then sku.length else i + batchSize)
      = batchAt batchSize sku i 0 := by
  unfold slice batchAt
  simp only [Nat.zero_mul, Nat.add_zero]
  split_ifs with h
  · rw [List.take_of_length_le (by simp), List.take_of_length_le (by simp; omega)]
  · rw [Nat.add_sub_cancel_left]

theorem batchAt_shift (batchSize : Nat) (sku : List Record) (i j : Nat) :
    batchAt batchSize sku i (j + 1) = batchAt batchSize sku (i + batchSize) j := by
  unfold batchAt
  congr 2
  ring

theorem uploadTrace_zero (batchSize : Nat) (sku : List Record) (i : Nat) :
    uploadTrace batchSize sku i 0 = [] := by
  simp [uploadTrace]

theorem uploadTrace_one (batchSize : Nat) (sku : List Record) (i : Nat) :
    uploadTrace batchSize sku i 1
      = [Event.addDocuments (batchAt batchSize sku i 0) "id"] := by
  simp [uploadTrace, List.range_succ_eq_map]

theorem uploadTrace_succ_succ (batchSize : Nat) (sku : List Record) (i n : Nat) :
    uploadTrace batchSize sku i (n + 2)
      = Event.addDocuments (batchAt batchSize sku i 0) "id" :: Event.sleep 100
          :: uploadTrace batchSize sku (i + batchSize) (n + 1) := by
  unfold uploadTrace
  rw [List.range_succ_eq_map (n + 1), List.map_cons, List.map_map]
  rw [List.range_succ_eq_map n, List.map_cons, List.map_cons]
  simp only [List.intersperse, Function.comp_def, Nat.succ_eq_add_one, batchAt_shift]

theorem totalBatches_pos (batchSize m : Nat) (hB : 0 < batchSize) (hm : 0 < m) :
    0 < totalBatches batchSize m := by
  have h := totalBatches_step batchSize m 0 hB hm
  simp only [Nat.sub_zero] at h
  omega

/-- The complete description of a run of the upload loop: it submits the
first `n` batches with a pause between neighbours; either all batches were
accepted and `lastTaskUID` is the identifier of the last one, or the n-th
submission was the first to be rejected and the process exited. -/
theorem uploadLoop_run (batchSize : Nat) (hB : 0 < batchSize) (sku : List Record)
    (add : Nat → Except String Int) :
    ∀ (fuel i calls : Nat) (uid0 : Int), sku.length - i < fuel →
      ∃ (n : Nat) (res : UploadResult),
        uploadLoop batchSize sku add fuel i calls uid0
          = some (uploadTrace batchSize sku i n, res) ∧
        n ≤ totalBatches batchSize (sku.length - i) ∧
        (∀ k, k + 1 < n → ∃ uid, add (calls + k) = .ok uid) ∧
        ((∃ uid, res = .done uid ∧ n = totalBatches batchSize (sku.length - i) ∧
            (n = 0 → uid = uid0) ∧ (0 < n → add (calls + (n - 1)) = .ok uid)) ∨
         (∃ i1 e1 err, res = .fatal i1 e1 err ∧ 0 < n ∧
            add (calls + (n - 1)) = .error err)) := by
  intro fuel
  induction fuel with
  | zero => intro i calls uid0 hf; omega
  | succ fuel ih =>
    intro i calls uid0 hf
    by_cases hi : i < sku.length
    · have hstep := totalBatches_step batchSize sku.length i hB hi
      rw [uploadLoop]
      simp only [hi, if_true, slice_eq_batchAt]
      cases hadd : add calls with
      | error err =>
        refine ⟨1, .fatal i (if i + batchSize > sku.length then sku.length else i + batchSize) err,
          ?_, by omega, ?_, Or.inr ⟨_, _, err, rfl, by omega, ?_⟩⟩
        · simp only [uploadTrace_one]
        · intro k hk; omega
        · simpa using hadd
      | ok uid =>
        obtain ⟨n, res, hrun, hle, hok, hres⟩ :=
          ih (i + batchSize) (calls + 1) uid (by omega)
        have hn : i + batchSize < sku.length → 0 < n := by
          intro hlt
          rcases hres with ⟨_, _, hn, _⟩ | ⟨_, _, _, _, hn, _⟩
          · rw [hn]
            exact totalBatches_pos batchSize _ hB (by omega)
          · exact hn
        have hn0 : ¬ i + batchSize < sku.length → n = 0 := by
          intro hge
          have := totalBatches_of_le batchSize sku.length (i + batchSize) hB (by omega)
          omega
        refine ⟨n + 1, res, ?_, by omega, ?_, ?_⟩
        · simp only [hrun]
          by_cases hlt : i + batchSize < sku.length
          · obtain ⟨m, rfl⟩ : ∃ m, n = m + 1 := ⟨n - 1, by have := hn hlt; omega⟩
            simp only [hlt, if_true, uploadTrace_succ_succ, List.singleton_append]
          · have h0 := hn0 hlt
            subst h0
            simp only [hlt, if_false, uploadTrace_zero, Nat.zero_add, uploadTrace_one,
              List.append_nil]
        · intro k hk
          rcases k with _ | k
          · exact ⟨uid, by simpa using hadd⟩
          · obtain ⟨u, hu⟩ := hok k (by omega)
            exact ⟨u, by rw [← hu]; congr 1; omega⟩
        · rcases hres with ⟨u, hr, hnb, hz, hp⟩ | ⟨i1, e1, err, hr, hp, he⟩
          · refine Or.inl ⟨u, hr, by omega, by omega, ?_⟩
            intro _
            rcases n with _ | n
            · rw [hz rfl]; simpa using hadd
            · have := hp (by omega)
              rw [← this]; congr 1; omega
          · refine Or.inr ⟨i1, e1, err, hr, by omega, ?_⟩
            rw [← he]; congr 1; omega
    · have h0 := totalBatches_of_le batchSize sku.length i hB (by omega)
      rw [uploadLoop]
      simp only [hi, if_false]
      exact ⟨0, .done uid0, by rw [uploadTrace_zero], by omega, by intro k hk; omega,
        Or.inl ⟨uid0, rfl, by omega, fun _ => rfl, by intro h; omega⟩⟩

theorem totalBatches_eq_ceil (batchSize len : Nat) (hB : 0 < batchSize) :
    totalBatches batchSize len = ⌈(len : ℚ) / (batchSize : ℚ)⌉₊ := by
  have hBq : (0 : ℚ) < (batchSize : ℚ) := by exact_mod_cast hB
  unfold totalBatches
  apply le_antisymm
  · have hc : (len : ℚ) / batchSize ≤ (⌈(len : ℚ) / (batchSize : ℚ)⌉₊ : ℚ) := Nat.le_ceil _
    rw [div_le_iff₀ hBq] at hc
    have hc2 : len ≤ ⌈(len : ℚ) / (batchSize : ℚ)⌉₊ * batchSize := by exact_mod_cast hc
    apply Nat.le_of_lt_succ
    rw [Nat.div_lt_iff_lt_mul hB, Nat.succ_mul]
    omega
  · rw [Nat.ceil_le, div_le_iff₀ hBq]
    have h1 : len + batchSize - 1 < ((len + batchSize - 1) / batchSize + 1) * batchSize := by
      rw [← Nat.div_lt_iff_lt_mul hB]
      omega
    have h2 : len ≤ (len + batchSize - 1) / batchSize * batchSize := by
      have : ((len + batchSize - 1) / batchSize + 1) * batchSize
        = (len + batchSize - 1) / batchSize * batchSize + batchSize := by ring
      omega
    exact_mod_cast h2

/-- Batch number `j` exists exactly when its first index lies inside the
collection. -/
theorem lt_totalBatches_iff (batchSize len j : Nat) (hB : 0 < batchSize) :
    j < totalBatches batchSize len ↔ j * batchSize < len := by
  unfold totalBatches
  rw [Nat.lt_iff_add_one_le, Nat.le_div_iff_mul_le hB, Nat.add_mul, Nat.one_mul]
  omega

theorem map_batchAt_succ (batchSize : Nat) (sku : List Record) (i n : Nat) :
    (List.range (n + 1)).map (batchAt batchSize sku i)
      = batchAt batchSize sku i 0
          :: (List.range n).map (batchAt batchSize sku (i + batchSize)) := by
  rw [List.range_succ_eq_map, List.map_cons, List.map_map]
  congr 1
  apply List.map_congr_left
  intro j _
  simp [batchAt_shift]

theorem submitted_uploadTrace (batchSize : Nat) (sku : List Record) :
    ∀ (n i : Nat), submitted (uploadTrace batchSize sku i n)
      = (List.range n).map (batchAt batchSize sku i)
  | 0, i => by simp [uploadTrace_zero, submitted]
  | 1, i => by simp [uploadTrace_one, submitted, List.range_succ_eq_map]
  | n + 2, i => by
    rw [uploadTrace_succ_succ, map_batchAt_succ]
    simp only [submitted]
    rw [submitted_uploadTrace batchSize sku (n + 1) (i + batchSize)]

theorem pauses_uploadTrace (batchSize : Nat) (sku : List Record) :
    ∀ (n i : Nat), pauses (uploadTrace batchSize sku i n) = List.replicate (n - 1) 100
  | 0, i => by simp [uploadTrace_zero, pauses]
  | 1, i => by simp [uploadTrace_one, pauses]
  | n + 2, i => by
    rw [uploadTrace_succ_succ]
    simp only [pauses]
    rw [pauses_uploadTrace batchSize sku (n + 1) (i + batchSize)]
    simp [List.replicate_succ]

theorem queried_uploadTrace (batchSize : Nat) (sku : List Record) :
    ∀ (n i : Nat), queried (uploadTrace batchSize sku i n) = []
  | 0, i => by simp [uploadTrace_zero, queried]
  | 1, i => by simp [uploadTrace_one, queried]
  | n + 2, i => by
    rw [uploadTrace_succ_succ]
    simp only [queried]
    exact queried_uploadTrace batchSize sku (n + 1) (i + batchSize)

theorem statsQueries_uploadTrace (batchSize : Nat) (sku : List Record) :
    ∀ (n i : Nat), statsQueries (uploadTrace batchSize sku i n) = 0
  | 0, i => by simp [uploadTrace_zero, statsQueries]
  | 1, i => by simp [uploadTrace_one, statsQueries]
  | n + 2, i => by
    rw [uploadTrace_succ_succ]
    simp only [statsQueries]
    exact statsQueries_uploadTrace batchSize sku (n + 1) (i + batchSize)

/-- A trace of the upload loop is its submissions with a pause of 100 ms
between neighbours. -/
theorem uploadTrace_eq_intersperse (batchSize : Nat) (sku : List Record) (i n : Nat) :
    uploadTrace batchSize sku i n
      = List.intersperse (Event.sleep 100)
          ((submitted (uploadTrace batchSize sku i n)).map
            (fun b => Event.addDocuments b "id")) := by
  rw [submitted_uploadTrace, List.map_map]
  rfl

theorem flatten_batches (batchSize : Nat) (hB : 0 < batchSize) (sku : List Record) :
    ∀ (n i : Nat), totalBatches batchSize (sku.length - i) = n →
      ((List.range n).map (batchAt batchSize sku i)).flatten = sku.drop i := by
  intro n
  induction n with
  | zero =>
    intro i h
    have hi : sku.length ≤ i := by
      by_contra hlt
      have := totalBatches_pos batchSize (sku.length - i) hB (by omega)
      omega
    simp [List.drop_eq_nil_of_le hi]
  | succ n ih =>
    intro i h
    have hi : i < sku.length := by
      by_contra hge
      have := totalBatches_of_le batchSize sku.length i hB (by omega)
      omega
    have hstep := totalBatches_step batchSize sku.length i hB hi
    rw [map_batchAt_succ, List.flatten_cons, ih (i + batchSize) (by omega)]
    unfold batchAt
    simp only [Nat.zero_mul, Nat.add_zero]
    rw [← List.drop_drop, List.take_append_drop]

theorem batchAt_length (batchSize : Nat) (sku : List Record) (i j : Nat) :
    (batchAt batchSize sku i j).length = min batchSize (sku.length - (i + j * batchSize)) := by
  simp [batchAt, List.length_take, List.length_drop]

/-- When every submission is accepted the loop submits all batches and ends
with the identifier of the last one. -/
theorem uploadLoop_all_ok (batchSize : Nat) (hB : 0 < batchSize) (sku : List Record)
    (add : Nat → Except String Int)
    (hok : ∀ k, k < totalBatches batchSize sku.length → ∃ uid, add k = .ok uid)
    (fuel : Nat) (hfuel : sku.length < fuel) :
    ∃ uid, uploadLoop batchSize sku add fuel 0 0 0
        = some (uploadTrace batchSize sku 0 (totalBatches batchSize sku.length), .done uid) ∧
      (totalBatches batchSize sku.length = 0 → uid = 0) ∧
      (0 < totalBatches batchSize sku.length →
        add (totalBatches batchSize sku.length - 1) = .ok uid) := by
  obtain ⟨n, res, hrun, hle, _, hres⟩ :=
    uploadLoop_run batchSize hB sku add fuel 0 0 0 (by omega)
  simp only [Nat.sub_zero, Nat.zero_add] at hrun hle hres
  rcases hres with ⟨uid, hr, hn, hz, hp⟩ | ⟨i1, e1, err, _, hp, he⟩
  · subst hn
    subst hr
    exact ⟨uid, hrun, hz, hp⟩
  · obtain ⟨uid, hu⟩ := hok (n - 1) (by omega)
    rw [hu] at he
    cases he

/-- When submission number `m` (counted from zero) is the first to be
rejected, the loop submits the batches `0, ..., m` and the process exits. -/
theorem uploadLoop_first_failure (batchSize : Nat) (hB : 0 < batchSize)
    (sku : List Record) (add : Nat → Except String Int) (m : Nat)
    (hm : m < totalBatches batchSize sku.length) (err : String)
    (hfail : add m = .error err) (hbefore : ∀ k, k < m → ∃ uid, add k = .ok uid)
    (fuel : Nat) (hfuel : sku.length < fuel) :
    ∃ i end_, uploadLoop batchSize sku add fuel 0 0 0
        = some (uploadTrace batchSize sku 0 (m + 1), .fatal i end_ err) := by
  obtain ⟨n, res, hrun, hle, hok, hres⟩ :=
    uploadLoop_run batchSize hB sku add fuel 0 0 0 (by omega)
  simp only [Nat.sub_zero, Nat.zero_add] at hrun hle hok hres
  have hnm : ¬ m + 1 < n := by
    intro h
    obtain ⟨uid, hu⟩ := hok m h
    rw [hu] at hfail
    cases hfail
  rcases hres with ⟨uid, hr, hn, _, hp⟩ | ⟨i1, e1, err1, hr, hp, he⟩
  · have hnm1 : n = m + 1 := by omega
    have hu := hp (by omega)
    rw [hnm1, Nat.add_sub_cancel, hfail] at hu
    cases hu
  · have hmn : ¬ n - 1 < m := by
      intro h
      obtain ⟨uid, hu⟩ := hbefore (n - 1) h
      rw [hu] at he
      cases he
    have hnm1 : n = m + 1 := by omega
    subst hnm1
    rw [Nat.add_sub_cancel, hfail] at he
    cases he
    exact ⟨i1, e1, by rw [hrun, hr]⟩

/-! ## Claims about the upload loop -/

/-- C1: for a batch size `B > 0` and a run in which every submission is
accepted, the upload loop ends normally, submits exactly `totalBatches`
batches, `totalBatches` is `ceil(N / B)`, and the submitted batches
concatenated in submission order are the collection itself. -/
theorem upload_submits_ceil_batches (batchSize : Nat) (hB : 0 < batchSize)
    (sku : List Record) (add : Nat → Except String Int)
    (hok : ∀ k, k < totalBatches batchSize sku.length → ∃ uid, add k = .ok uid)
    (fuel : Nat) (hfuel : sku.length < fuel) :
    ∃ trace uid, uploadLoop batchSize sku add fuel 0 0 0 = some (trace, .done uid) ∧
      (submitted trace).length = totalBatches batchSize sku.length ∧
      totalBatches batchSize sku.length = ⌈(sku.length : ℚ) / (batchSize : ℚ)⌉₊ ∧
      (submitted trace).flatten = sku := by
  obtain ⟨uid, hrun, _, _⟩ := uploadLoop_all_ok batchSize hB sku add hok fuel hfuel
  refine ⟨_, uid, hrun, ?_, totalBatches_eq_ceil batchSize sku.length hB, ?_⟩
  · simp [submitted_uploadTrace]
  · rw [submitted_uploadTrace]
    simpa using flatten_batches batchSize hB sku (totalBatches batchSize sku.length) 0 rfl

theorem upload_submits_ceil_batches_witness :
    ∃ trace uid,
      uploadLoop 2 fiveRecords acceptingService.addDocuments 6 0 0 0
        = some (trace, .done uid) ∧
      (submitted trace).length = 3 ∧ (submitted trace).flatten = fiveRecords := by
  obtain ⟨trace, uid, hrun, hlen, _, hcat⟩ :=
    upload_submits_ceil_batches 2 (by decide) fiveRecords acceptingService.addDocuments
      (fun k _ => ⟨_, rfl⟩) 6 (by decide)
  exact ⟨trace, uid, hrun, hlen, hcat⟩

/-- C5: for a non-empty collection, a batch size `B > 0` and a run in which
every submission is accepted, the actions of the upload loop are the
submissions with exactly one pause of 100 ms between two successive
submissions and none after the last one, so there is one pause fewer than
there are batches; for 2500 records and `B = 1000` the actions are submit,
pause, submit, pause, submit. -/
theorem upload_pauses_between_batches (batchSize : Nat) (hB : 0 < batchSize)
    (sku : List Record) (hN : 0 < sku.length) (add : Nat → Except String Int)
    (hok : ∀ k, k < totalBatches batchSize sku.length → ∃ uid, add k = .ok uid)
    (fuel : Nat) (hfuel : sku.length < fuel) :
    ∃ trace uid, uploadLoop batchSize sku add fuel 0 0 0 = some (trace, .done uid) ∧
      trace = List.intersperse (Event.sleep 100)
        ((submitted trace).map (fun b => Event.addDocuments b "id")) ∧
      (submitted trace).length = totalBatches batchSize sku.length ∧
      pauses trace = List.replicate (totalBatches batchSize sku.length - 1) 100 ∧
      (pauses trace).length + 1 = ⌈(sku.length : ℚ) / (batchSize : ℚ)⌉₊ ∧
      (sku.length = 2500 → batchSize = 1000 →
        ∃ b1 b2 b3, trace = [Event.addDocuments b1 "id", Event.sleep 100,
          Event.addDocuments b2 "id", Event.sleep 100, Event.addDocuments b3 "id"]) := by
  obtain ⟨uid, hrun, _, _⟩ := uploadLoop_all_ok batchSize hB sku add hok fuel hfuel
  have hpos := totalBatches_pos batchSize sku.length hB hN
  refine ⟨_, uid, hrun, uploadTrace_eq_intersperse batchSize sku 0 _, ?_,
    pauses_uploadTrace batchSize sku _ 0, ?_, ?_⟩
  · simp [submitted_uploadTrace]
  · rw [pauses_uploadTrace, List.length_replicate, ← totalBatches_eq_ceil batchSize _ hB]
    omega
  · intro h1 h2
    have h3 : totalBatches batchSize sku.length = 3 := by
      rw [h1, h2]
      decide
    rw [h3, uploadTrace_succ_succ, uploadTrace_succ_succ, uploadTrace_one]
    exact ⟨_, _, _, rfl⟩

theorem upload_pauses_between_batches_witness :
    ∃ trace uid,
      uploadLoop 2 fiveRecords acceptingService.addDocuments 6 0 0 0
        = some (trace, .done uid) ∧
      pauses trace = [100, 100] ∧ (submitted trace).length = 3 := by
  obtain ⟨trace, uid, hrun, _, hsub, hp, _, _⟩ :=
    upload_pauses_between_batches 2 (by decide) fiveRecords (by decide)
      acceptingService.addDocuments (fun k _ => ⟨_, rfl⟩) 6 (by decide)
  exact ⟨trace, uid, hrun, hp, hsub⟩

/-- C6: for a batch size `B > 0` the upload loop, whatever the answers of
the service, submits only batches of the partition: the j-th submitted batch
is the contiguous run of records from index `j * B`, it is non-empty and has
at most `B` records, exactly `B` when it is not the last batch of the
partition, and `N - B * (totalBatches - 1)` when it is the last, where
`totalBatches` is `ceil(N / B)`.  For 2500
records, `B = 1000` and accepted submissions the sizes are 1000, 1000, 500. -/
theorem upload_batch_sizes (batchSize : Nat) (hB : 0 < batchSize)
    (sku : List Record) (add : Nat → Except String Int)
    (fuel : Nat) (hfuel : sku.length < fuel) :
    ∃ trace res, uploadLoop batchSize sku add fuel 0 0 0 = some (trace, res) ∧
      totalBatches batchSize sku.length = ⌈(sku.length : ℚ) / (batchSize : ℚ)⌉₊ ∧
      (submitted trace).length ≤ totalBatches batchSize sku.length ∧
      (∀ (j : Nat) (b : List Record), (submitted trace)[j]? = some b →
        b = (sku.drop (j * batchSize)).take batchSize ∧
        0 < b.length ∧ b.length ≤ batchSize ∧
        (j + 1 < totalBatches batchSize sku.length → b.length = batchSize) ∧
        (j + 1 = totalBatches batchSize sku.length →
          b.length = sku.length - batchSize * (totalBatches batchSize sku.length - 1))) ∧
      (sku.length = 2500 → batchSize = 1000 → (∀ k, ∃ uid, add k = .ok uid) →
        (submitted trace).map List.length = [1000, 1000, 500]) := by
  obtain ⟨n, res, hrun, hle, _, hres⟩ :=
    uploadLoop_run batchSize hB sku add fuel 0 0 0 (by omega)
  simp only [Nat.sub_zero, Nat.zero_add] at hrun hle hres
  refine ⟨_, res, hrun, totalBatches_eq_ceil batchSize sku.length hB,
    by simpa [submitted_uploadTrace] using hle, ?_, ?_⟩
  · intro j b hb
    rw [submitted_uploadTrace] at hb
    have hj : j < n := by
      by_contra hge
      rw [List.getElem?_eq_none (by simpa using Nat.le_of_not_lt hge)] at hb
      cases hb
    rw [List.getElem?_map, List.getElem?_range hj] at hb
    simp only [Option.map_some'] at hb
    have hb2 : b = batchAt batchSize sku 0 j := by
      injection hb with hb
      exact hb.symm
    have hlen := batchAt_length batchSize sku 0 j
    rw [← hb2, Nat.zero_add] at hlen
    have hin := (lt_totalBatches_iff batchSize sku.length j hB).1 (by omega)
    refine ⟨by rw [hb2]; simp [batchAt], by omega, by omega, ?_, ?_⟩
    · intro hnext
      have h2 := (lt_totalBatches_iff batchSize sku.length (j + 1) hB).1 hnext
      rw [Nat.add_mul, Nat.one_mul] at h2
      omega
    · intro hlast
      have h2 : ¬ (j + 1) * batchSize < sku.length := by
        rw [← lt_totalBatches_iff batchSize sku.length (j + 1) hB]
        omega
      rw [Nat.add_mul, Nat.one_mul] at h2
      rw [← hlast, Nat.add_sub_cancel, Nat.mul_comm batchSize j]
      omega
  · intro h1 h2 hok
    have h3 : totalBatches batchSize sku.length = 3 := by
      rw [h1, h2]
      decide
    have hn : n = 3 := by
      rcases hres with ⟨_, _, hn, _, _⟩ | ⟨_, _, err, _, _, he⟩
      · omega
      · obtain ⟨uid, hu⟩ := hok (n - 1)
        rw [hu] at he
        cases he
    subst hn
    subst h2
    rw [submitted_uploadTrace]
    simp [List.range_succ_eq_map, batchAt_length, h1]

theorem upload_batch_sizes_witness :
    ∃ trace res,
      uploadLoop 2 fiveRecords rejectingService.addDocuments 6 0 0 0 = some (trace, res) ∧
      ∀ (j : Nat) (b : List Record), (submitted trace)[j]? = some b →
        0 < b.length ∧ b.length ≤ 2 := by
  obtain ⟨trace, res, hrun, _, _, hall, _⟩ :=
    upload_batch_sizes 2 (by decide) fiveRecords rejectingService.addDocuments 6 (by decide)
  exact ⟨trace, res, hrun, fun j b hb => ⟨(hall j b hb).2.1, (hall j b hb).2.2.1⟩⟩

/-- C7: for a non-empty collection and a run in which every submission is
accepted, `lastTaskUID` after the loop is the identifier returned by the
last submission, that is by submission number `totalBatches`; no
identifier returned earlier enters it. -/
theorem lastTaskUID_of_last_batch (batchSize : Nat) (hB : 0 < batchSize)
    (sku : List Record) (hN : 0 < sku.length) (add : Nat → Except String Int)
    (hok : ∀ k, k < totalBatches batchSize sku.length → ∃ uid, add k = .ok uid)
    (fuel : Nat) (hfuel : sku.length < fuel) :
    ∃ trace lastTaskUID,
      uploadLoop batchSize sku add fuel 0 0 0 = some (trace, .done lastTaskUID) ∧
      (submitted trace).length = totalBatches batchSize sku.length ∧
      add ((submitted trace).length - 1) = .ok lastTaskUID := by
  obtain ⟨uid, hrun, _, hlast⟩ := uploadLoop_all_ok batchSize hB sku add hok fuel hfuel
  have hpos := totalBatches_pos batchSize sku.length hB hN
  have hlen : (submitted (uploadTrace batchSize sku 0 (totalBatches batchSize sku.length))).length
      = totalBatches batchSize sku.length := by
    simp [submitted_uploadTrace]
  exact ⟨_, uid, hrun, hlen, by rw [hlen]; exact hlast hpos⟩

theorem lastTaskUID_of_last_batch_witness :
    ∃ trace,
      uploadLoop 2 fiveRecords acceptingService.addDocuments 6 0 0 0
        = some (trace, .done 12) := by
  obtain ⟨trace, uid, hrun, hlen, hlast⟩ :=
    lastTaskUID_of_last_batch 2 (by decide) fiveRecords (by decide)
      acceptingService.addDocuments (fun k _ => ⟨_, rfl⟩) 6 (by decide)
  have h3 : totalBatches 2 fiveRecords.length = 3 := by decide
  rw [hlen, h3] at hlast
  have huid : uid = 12 := by
    have h : acceptingService.addDocuments 2 = Except.ok (12 : Int) := rfl
    rw [h] at hlast
    injection hlast with hlast
    exact hlast.symm
  rw [huid] at hrun
  exact ⟨trace, hrun⟩

/-! ## The polling loop and the whole run -/

theorem queried_append (a b : List Event) : queried (a ++ b) = queried a ++ queried b := by
  induction a with
  | nil => rfl
  | cons e rest ih => cases e <;> simp [queried, ih]

/-- The upload loop issues neither status queries nor stats queries. -/
theorem uploadLoop_only_uploads (batchSize : Nat) (sku : List Record)
    (add : Nat → Except String Int) :
    ∀ (fuel i calls : Nat) (uid0 : Int) (trace : List Event) (res : UploadResult),
      uploadLoop batchSize sku add fuel i calls uid0 = some (trace, res) →
      queried trace = [] ∧ statsQueries trace = 0 := by
  intro fuel
  induction fuel with
  | zero => intro i calls uid0 trace res h; simp [uploadLoop] at h
  | succ fuel ih =>
    intro i calls uid0 trace res h
    rw [uploadLoop] at h
    by_cases hi : i < sku.length
    · simp only [hi, if_true] at h
      cases hadd : add calls with
      | error err =>
        simp only [hadd] at h
        injection h with h
        injection h with h1 h2
        subst h1
        simp [queried, statsQueries]
      | ok uid =>
        simp only [hadd] at h
        cases hrest : uploadLoop batchSize sku add fuel (i + batchSize) (calls + 1) uid with
        | none => simp [hrest] at h
        | some pr =>
          obtain ⟨rest, res1⟩ := pr
          simp only [hrest] at h
          injection h with h
          injection h with h1 h2
          subst h1
          obtain ⟨hq, hs⟩ := ih _ _ _ _ _ hrest
          by_cases hlt : i + batchSize < sku.length
          · simp [hlt, queried, statsQueries, hq, hs]
          · simp [hlt, queried, statsQueries, hq, hs]
    · simp only [hi, if_false] at h
      injection h with h
      injection h with h1 h2
      subst h1
      simp [queried, statsQueries]

/-- The polling loop started at query number `k`, when answer `k + m` is the
first terminal one: `m` rounds of query and pause, then a last query. -/
theorem pollLoop_run (getTask : Nat → Except String Task) (uid : Int) :
    ∀ (m k fuel : Nat), m < fuel → Terminal (getTask (k + m)) →
      (∀ j, j < m → ¬ Terminal (getTask (k + j))) →
      ∃ out, pollLoop getTask uid fuel k
          = some ((List.replicate m [Event.getTask uid, Event.sleep 500]).flatten
              ++ [Event.getTask uid], out) ∧
        (∀ err, getTask (k + m) = .error err → out = .queryError err) ∧
        (∀ t, getTask (k + m) = .ok t → t.Status = "succeeded" → out = .succeeded) ∧
        (∀ t, getTask (k + m) = .ok t → t.Status = "failed" → out = .failed t.Error) := by
  intro m
  induction m with
  | zero =>
    intro k fuel hf hterm _
    obtain ⟨fuel, rfl⟩ : ∃ f, fuel = f + 1 := ⟨fuel - 1, by omega⟩
    simp only [Nat.add_zero] at hterm ⊢
    rw [pollLoop]
    cases hget : getTask k with
    | error err =>
      refine ⟨.queryError err, by simp, ?_, ?_, ?_⟩
      · intro e he; cases he; rfl
      · intro t ht; cases ht
      · intro t ht; cases ht
    | ok t =>
      rw [hget] at hterm
      by_cases hs : t.Status = "succeeded"
      · refine ⟨.succeeded, by simp [hs], ?_, ?_, ?_⟩
        · intro e he; cases he
        · intro t1 ht1 _; rfl
        · intro t1 ht1 hf1
          cases ht1
          rw [hs] at hf1
          exact absurd hf1 (by decide)
      · have hfl : t.Status = "failed" := by
          rcases hterm with h | h
          · exact absurd h hs
          · exact h
        refine ⟨.failed t.Error, by simp [hs, hfl], ?_, ?_, ?_⟩
        · intro e he; cases he
        · intro t1 ht1 hs1
          cases ht1
          exact absurd hs1 hs
        · intro t1 ht1 _
          cases ht1
          rfl
  | succ m ih =>
    intro k fuel hf hterm hearlier
    obtain ⟨fuel, rfl⟩ : ∃ f, fuel = f + 1 := ⟨fuel - 1, by omega⟩
    have h0 := hearlier 0 (by omega)
    rw [Nat.add_zero] at h0
    have hterm2 : Terminal (getTask (k + 1 + m)) := by
      have e : k + 1 + m = k + (m + 1) := by omega
      rw [e]
      exact hterm
    have hearlier2 : ∀ j, j < m → ¬ Terminal (getTask (k + 1 + j)) := by
      intro j hj
      have e : k + 1 + j = k + (j + 1) := by omega
      rw [e]
      exact hearlier (j + 1) (by omega)
    obtain ⟨out, hrun, h1, h2, h3⟩ := ih (k + 1) fuel (by omega) hterm2 hearlier2
    have e : k + 1 + m = k + (m + 1) := by omega
    rw [e] at h1 h2 h3
    refine ⟨out, ?_, h1, h2, h3⟩
    rw [pollLoop]
    cases hget : getTask k with
    | error err =>
      rw [hget] at h0
      exact absurd trivial h0
    | ok t =>
      rw [hget] at h0
      have hs : ¬ t.Status = "succeeded" := fun h => h0 (Or.inl h)
      have hfl : ¬ t.Status = "failed" := fun h => h0 (Or.inr h)
      simp [hs, hfl, hrun, List.replicate_succ]

theorem queried_pollTrace (uid : Int) (m : Nat) :
    queried ((List.replicate m [Event.getTask uid, Event.sleep 500]).flatten
        ++ [Event.getTask uid])
      = List.replicate (m + 1) uid := by
  induction m with
  | zero => simp [queried]
  | succ m ih =>
    rw [List.replicate_succ, List.flatten_cons, List.append_assoc]
    simp only [List.cons_append, List.nil_append, queried, List.append_eq]
    rw [ih]
    simp [List.replicate_succ]

/-- C3: in a run whose upload left a non-zero `lastTaskUID`, when status
answer number `m + 1` is the first that reports a failed query, `succeeded`
or `failed`, the script issues exactly `m + 1` status queries, all for
`lastTaskUID` (each of the first `m` followed by a pause and another query),
none after the terminal answer, and the outcome is the query error, success
or the failure with the error detail of the task. -/
theorem polling_stops_at_first_terminal (caseTable : Char → Char) (batchSize : Nat)
    (hB : 0 < batchSize) (service : Service) (sku : List Record) (fuel : Nat)
    (uploaded : List Event) (lastTaskUID : Int)
    (hup : uploadLoop batchSize (cleanData caseTable sku) service.addDocuments fuel 0 0 0
      = some (uploaded, .done lastTaskUID))
    (hne : lastTaskUID ≠ 0) (m : Nat) (hterm : Terminal (service.getTask m))
    (hearlier : ∀ j, j < m → ¬ Terminal (service.getTask j)) (hfuel : m < fuel) :
    ∃ polled out,
      pollLoop service.getTask lastTaskUID fuel 0 = some (polled, out) ∧
      mainFrom caseTable batchSize service sku fuel
        = some (uploaded ++ polled ++ afterPolling, .finished (some out)) ∧
      polled = (List.replicate m [Event.getTask lastTaskUID, Event.sleep 500]).flatten
        ++ [Event.getTask lastTaskUID] ∧
      queried (uploaded ++ polled ++ afterPolling) = List.replicate (m + 1) lastTaskUID ∧
      (∀ err, service.getTask m = .error err → out = .queryError err) ∧
      (∀ t, service.getTask m = .ok t → t.Status = "succeeded" → out = .succeeded) ∧
      (∀ t, service.getTask m = .ok t → t.Status = "failed" → out = .failed t.Error) := by
  obtain ⟨out, hrun, h1, h2, h3⟩ :=
    pollLoop_run service.getTask lastTaskUID m 0 fuel hfuel
      (by simpa using hterm) (by simpa using hearlier)
  simp only [Nat.zero_add] at h1 h2 h3
  have hq := (uploadLoop_only_uploads _ _ _ _ _ _ _ _ _ hup).1
  refine ⟨_, out, hrun, ?_, rfl, ?_, h1, h2, h3⟩
  · have hB0 : ¬ batchSize = 0 := by omega
    simp only [mainFrom, hB0, if_false, hup, hrun, hne, ne_eq, not_false_eq_true, if_true]
  · rw [queried_append, queried_append, hq, queried_pollTrace]
    simp [afterPolling, queried]

theorem polling_stops_at_first_terminal_witness :
    ∃ trace,
      mainFrom sampleCaseTable 2 acceptingService fiveRecords 6
        = some (trace, .finished (some .succeeded)) ∧
      queried trace = [12, 12, 12] := by
  obtain ⟨polled, out, _, hmain, _, hq, _, hs, _⟩ :=
    polling_stops_at_first_terminal sampleCaseTable 2 (by decide) acceptingService
      fiveRecords 6 _ 12 rfl (by decide) 2 (Or.inl rfl)
      (fun j hj => by
        have h : j = 0 ∨ j = 1 := by omega
        rcases h with h | h <;> subst h <;> simp [Terminal, acceptingService])
      (by decide)
  have hout := hs _ rfl rfl
  subst hout
  exact ⟨_, hmain, hq⟩

/-- C4: when submission number `m + 1` is the first to be rejected, the run
ends there with the fatal error of that submission: exactly the first
`m + 1` batches of the partition have been submitted, each once and in
order, and the run contains no status query and no stats query. -/
theorem upload_failure_aborts (caseTable : Char → Char) (batchSize : Nat)
    (hB : 0 < batchSize) (service : Service) (sku : List Record) (m : Nat)
    (hm : m < totalBatches batchSize sku.length) (err : String)
    (hfail : service.addDocuments m = .error err)
    (hbefore : ∀ k, k < m → ∃ uid, service.addDocuments k = .ok uid)
    (fuel : Nat) (hfuel : sku.length < fuel) :
    ∃ trace i end_,
      mainFrom caseTable batchSize service sku fuel = some (trace, .fatal i end_ err) ∧
      submitted trace
        = (List.range (m + 1)).map
            (fun j => ((cleanData caseTable sku).drop (j * batchSize)).take batchSize) ∧
      (submitted trace).length = m + 1 ∧
      queried trace = [] ∧ statsQueries trace = 0 := by
  have hlen : (cleanData caseTable sku).length = sku.length := by simp [cleanData]
  obtain ⟨i, end_, hrun⟩ :=
    uploadLoop_first_failure batchSize hB (cleanData caseTable sku) service.addDocuments m
      (by rw [hlen]; exact hm) err hfail hbefore fuel (by rw [hlen]; exact hfuel)
  have hB0 : ¬ batchSize = 0 := by omega
  refine ⟨uploadTrace batchSize (cleanData caseTable sku) 0 (m + 1), i, end_, ?_, ?_, ?_,
    queried_uploadTrace _ _ _ _, statsQueries_uploadTrace _ _ _ _⟩
  · simp only [mainFrom, hB0, if_false, hrun]
  · rw [submitted_uploadTrace]
    apply List.map_congr_left
    intro j _
    simp [batchAt]
  · simp [submitted_uploadTrace]

theorem upload_failure_aborts_witness :
    ∃ trace i end_,
      mainFrom sampleCaseTable 2 rejectingService fiveRecords 6
        = some (trace, .fatal i end_ "payload too large") ∧
      (submitted trace).length = 2 ∧ queried trace = [] ∧ statsQueries trace = 0 := by
  obtain ⟨trace, i, end_, hrun, _, hlen, hq, hs⟩ :=
    upload_failure_aborts sampleCaseTable 2 (by decide) rejectingService fiveRecords 1
      (by decide) "payload too large" rfl
      (fun k hk => by
        have h : k = 0 := by omega
        subst h
        exact ⟨_, rfl⟩)
      6 (by decide)
  exact ⟨trace, i, end_, hrun, hlen, hq, hs⟩

/-- C8 (evaluation at the failing input): one record, and a service whose
first task has identifier 0 and is still processing.  The script submits the
batch and goes on to the stats query without a single status query. -/
theorem main_skips_polling_for_task_zero :
    main sampleCaseTable freshService [[("id", Value.number 1)]] 2
      = some (Event.addDocuments [[("id", Value.number 1)]] "id" :: afterPolling,
          Exit.finished none) ∧
    queried (Event.addDocuments [[("id", Value.number 1)]] "id" :: afterPolling) = [] := by
  exact ⟨rfl, rfl⟩

/-! ## Claims about the HTTP handlers -/

/-- C9: when the parameter `q` is absent or empty, `SearchProducts` answers
400 with the error envelope `success = false`, error `BAD_REQUEST`, code
`MISSING_QUERY`, and calls the index search not at all, whatever the other
parameters are. -/
theorem search_without_query_is_rejected
    (search : String → SearchRequest → Except String Value) (values : Values)
    (hq : values.lookup "q" = none ∨ values.lookup "q" = some "") :
    SearchProducts search values
      = ([], { statusCode := 400,
               body := .failure { Success := false, Error := "BAD_REQUEST",
                                  Message := "Query parameter 'q' is required",
                                  Code := "MISSING_QUERY" } }) := by
  have hget : Get values "q" = "" := by
    rcases hq with h | h <;> simp [Get, h]
  simp [SearchProducts, hget, writeJSONResponse, NewErrorResponse]

theorem search_without_query_is_rejected_witness :
    (SearchProducts emptyIndex [("limit", "5"), ("offset", "3"), ("q", "")]).1 = [] ∧
    (SearchProducts emptyIndex [("limit", "5"), ("offset", "3"), ("q", "")]).2.statusCode
      = 400 := by
  have h := search_without_query_is_rejected emptyIndex
    [("limit", "5"), ("offset", "3"), ("q", "")] (Or.inr rfl)
  rw [h]
  exact ⟨rfl, rfl⟩

theorem Atoi_empty : Atoi "" = none := by decide

/-- C10: `GetProductByID` answers 400 `BAD_REQUEST`/`MISSING_ID` for an
empty `id` and 400 `BAD_REQUEST`/`INVALID_ID` for a non-empty `id` that
`Atoi` rejects, in both cases without a search call.  When `id` parses as
`n` it makes exactly one search call, with empty query, filter `id = `
followed by the decimal form of `n`, and limit 1; when that search succeeds
without a hit the answer is 404 `NOT_FOUND`/`PRODUCT_NOT_FOUND`.  For the id
`12345` the filter is `id = 12345`. -/
theorem getProductByID_errors
    (search : String → SearchRequest → Except String Value) (values : Values) :
    (Get values "id" = "" →
      GetProductByID search values
        = ([], { statusCode := 400,
                 body := .failure { Success := false, Error := "BAD_REQUEST",
                                    Message := "Product ID is required",
                                    Code := "MISSING_ID" } })) ∧
    (Get values "id" ≠ "" → Atoi (Get values "id") = none →
      GetProductByID search values
        = ([], { statusCode := 400,
                 body := .failure { Success := false, Error := "BAD_REQUEST",
                                    Message := "Invalid product ID",
                                    Code := "INVALID_ID" } })) ∧
    (∀ n : Int, Atoi (Get values "id") = some n →
      (GetProductByID search values).1
        = [("", { Filter := some ("id = " ++ Itoa n), Limit := 1, Offset := 0 })] ∧
      ∀ result : Value,
        search "" { Filter := some ("id = " ++ Itoa n), Limit := 1, Offset := 0 }
          = .ok result →
        NoHit result →
        (GetProductByID search values).2
          = { statusCode := 404,
              body := .failure { Success := false, Error := "NOT_FOUND",
                                 Message := "Product not found",
                                 Code := "PRODUCT_NOT_FOUND" } }) ∧
    (Get values "id" = "12345" →
      (GetProductByID search values).1
        = [("", { Filter := some "id = 12345", Limit := 1, Offset := 0 })]) := by
  have hparsed : ∀ n : Int, Atoi (Get values "id") = some n →
      (GetProductByID search values).1
        = [("", { Filter := some ("id = " ++ Itoa n), Limit := 1, Offset := 0 })] ∧
      ∀ result : Value,
        search "" { Filter := some ("id = " ++ Itoa n), Limit := 1, Offset := 0 }
          = .ok result →
        NoHit result →
        (GetProductByID search values).2
          = { statusCode := 404,
              body := .failure { Success := false, Error := "NOT_FOUND",
                                 Message := "Product not found",
                                 Code := "PRODUCT_NOT_FOUND" } } := by
    intro n hn
    have hne : ¬ Get values "id" = "" := by
      intro h
      rw [h, Atoi_empty] at hn
      cases hn
    constructor
    · simp only [GetProductByID, hne, if_false, hn]
      cases search "" { Filter := some ("id = " ++ Itoa n), Limit := 1, Offset := 0 } with
      | error e => rfl
      | ok result =>
        simp only []
        cases hitsOf result with
        | none => rfl
        | some hitsList => simp only []; split_ifs <;> rfl
    · intro result hres hno
      simp only [GetProductByID, hne, if_false, hn, hres]
      cases hh : hitsOf result with
      | none => simp [writeJSONResponse, NewErrorResponse]
      | some hitsList =>
        have hnil := hno hitsList hh
        subst hnil
        simp [writeJSONResponse, NewErrorResponse]
  refine ⟨?_, ?_, hparsed, ?_⟩
  · intro h
    simp [GetProductByID, h, writeJSONResponse, NewErrorResponse]
  · intro hne hnone
    simp [GetProductByID, hne, hnone, writeJSONResponse, NewErrorResponse]
  · intro h
    have hn : Atoi (Get values "id") = some 12345 := by
      rw [h]
      decide
    have hi : Itoa 12345 = "12345" := by decide
    have h2 := (hparsed 12345 hn).1
    rw [hi] at h2
    exact h2

theorem getProductByID_errors_witness :
    (GetProductByID emptyIndex [("id", "12345")]).1
        = [("", { Filter := some "id = 12345", Limit := 1, Offset := 0 })] ∧
    (GetProductByID emptyIndex [("id", "12345")]).2.statusCode = 404 := by
  obtain ⟨_, _, h3, h4⟩ := getProductByID_errors emptyIndex [("id", "12345")]
  refine ⟨h4 rfl, ?_⟩
  have hno : NoHit (Value.object [("hits", Value.array []), ("query", Value.string "")]) := by
    intro hitsList hh
    have e : hitsOf (Value.object [("hits", Value.array []), ("query", Value.string "")])
        = some [] := rfl
    rw [e] at hh
    injection hh with hh
    exact hh.symm
  have h := (h3 12345 (by decide)).2 _ rfl hno
  rw [h]

/-- The one search call of `SearchProducts` for a non-empty query, with the
limit and offset of lines 37-45 written out. -/
theorem SearchProducts_calls (search : String → SearchRequest → Except String Value)
    (values : Values) (hq : Get values "q" ≠ "") :
    (SearchProducts search values).1
      = [(Get values "q",
          { Filter := none,
            Limit := (match Atoi (Get values "limit") with
              | none => 20
              | some limit => if limit ≤ 0 then 20 else limit),
            Offset := (match Atoi (Get values "offset") with
              | none => 0
              | some offset => if offset < 0 then 0 else offset) })] := by
  have hq2 : ¬ Get values "q" = "" := hq
  simp only [SearchProducts, hq2, if_false]
  split <;> rfl

/-- The response of `SearchProducts` when the search call succeeds. -/
theorem SearchProducts_ok (search : String → SearchRequest → Except String Value)
    (values : Values) (hq : Get values "q" ≠ "") (result : Value)
    (hres : search (Get values "q")
        { Filter := none,
          Limit := (match Atoi (Get values "limit") with
            | none => 20
            | some limit => if limit ≤ 0 then 20 else limit),
          Offset := (match Atoi (Get values "offset") with
            | none => 0
            | some offset => if offset < 0 then 0 else offset) } = .ok result) :
    (SearchProducts search values).2
      = { statusCode := 200,
          body := .success
            { Success := true, Message := "Search completed successfully",
              Data := .searchResult
                { Hits := [],
                  TotalHits := (match hitsOf result with
                    | some hitsList => Int.ofNat hitsList.length
                    | none => 0),
                  Processing := false, Query := Get values "q",
                  Limit := (match Atoi (Get values "limit") with
                    | none => 20
                    | some limit => if limit ≤ 0 then 20 else limit),
                  Offset := (match Atoi (Get values "offset") with
                    | none => 0
                    | some offset => if offset < 0 then 0 else offset) } } } := by
  have hq2 : ¬ Get values "q" = "" := hq
  simp only [SearchProducts, hq2, if_false, hres, writeJSONResponse, NewSuccessResponse]

/-- C11: for a non-empty query `SearchProducts` makes one search call whose
limit is 20 when the `limit` parameter is absent, is rejected by `Atoi`, or
parses to a value `≤ 0`, and is the parsed value otherwise; whose offset is
0 when the `offset` parameter is absent, is rejected by `Atoi`, or parses to
a negative value, and is the parsed value otherwise.  The same limit and
offset are echoed in the response of a successful search.  The limit is
always at least 1 and the offset at least 0. -/
theorem search_limit_offset_defaults
    (search : String → SearchRequest → Except String Value) (values : Values)
    (hq : Get values "q" ≠ "") :
    ∃ limit offset : Int,
      (SearchProducts search values).1
        = [(Get values "q", { Filter := none, Limit := limit, Offset := offset })] ∧
      (∀ result : Value,
        search (Get values "q") { Filter := none, Limit := limit, Offset := offset }
          = .ok result →
        ∃ totalHits : Int,
          (SearchProducts search values).2
            = { statusCode := 200,
                body := .success
                  { Success := true, Message := "Search completed successfully",
                    Data := .searchResult
                      { Hits := [], TotalHits := totalHits, Processing := false,
                        Query := Get values "q", Limit := limit, Offset := offset } } }) ∧
      (values.lookup "limit" = none → limit = 20) ∧
      (Atoi (Get values "limit") = none → limit = 20) ∧
      (∀ n : Int, Atoi (Get values "limit") = some n → n ≤ 0 → limit = 20) ∧
      (∀ n : Int, Atoi (Get values "limit") = some n → 0 < n → limit = n) ∧
      (values.lookup "offset" = none → offset = 0) ∧
      (Atoi (Get values "offset") = none → offset = 0) ∧
      (∀ n : Int, Atoi (Get values "offset") = some n → n < 0 → offset = 0) ∧
      (∀ n : Int, Atoi (Get values "offset") = some n → 0 ≤ n → offset = n) ∧
      1 ≤ limit ∧ 0 ≤ offset := by
  have habsent : ∀ key : String, values.lookup key = none → Atoi (Get values key) = none := by
    intro key h
    simp only [Get, h, Option.getD_none]
    exact Atoi_empty
  refine ⟨_, _, SearchProducts_calls search values hq,
    fun result hres => ⟨_, SearchProducts_ok search values hq result hres⟩,
    ?_, ?_, ?_, ?_, ?_, ?_, ?_, ?_, ?_, ?_⟩
  · intro h
    rw [habsent "limit" h]
  · intro h
    rw [h]
  · intro n h hn
    rw [h]
    simp only [hn, if_true]
  · intro n h hn
    rw [h]
    have hn2 : ¬ n ≤ 0 := by omega
    simp only [hn2, if_false]
  · intro h
    rw [habsent "offset" h]
  · intro h
    rw [h]
  · intro n h hn
    rw [h]
    simp only [hn, if_true]
  · intro n h hn
    rw [h]
    have hn2 : ¬ n < 0 := by omega
    simp only [hn2, if_false]
  · cases Atoi (Get values "limit") with
    | none => decide
    | some n =>
      simp only []
      split_ifs with h
      · decide
      · omega
  · cases Atoi (Get values "offset") with
    | none => decide
    | some n =>
      simp only []
      split_ifs with h
      · decide
      · omega

theorem search_limit_offset_defaults_witness :
    (SearchProducts emptyIndex [("q", "glue"), ("limit", "-5"), ("offset", "7")]).1
      = [("glue", { Filter := none, Limit := 20, Offset := 7 })] := by
  obtain ⟨limit, offset, hcalls, _, _, _, hl, _, _, _, _, ho, _, _⟩ :=
    search_limit_offset_defaults emptyIndex [("q", "glue"), ("limit", "-5"), ("offset", "7")]
      (by decide)
  have h1 : limit = 20 := hl (-5) (by decide) (by decide)
  have h2 : offset = 7 := ho 7 (by decide) (by decide)
  rw [h1, h2] at hcalls
  exact hcalls

/-- C12: when the search call of `SearchProducts` succeeds, the response
has status 200 and echoes the query, the limit and the offset of the search
request; `total_hits` is the length of the array stored under `hits` in the
search answer, and 0 when the answer has no such array; the typed list of
hits is empty whatever the search returned. -/
theorem search_success_response
    (search : String → SearchRequest → Except String Value) (values : Values)
    (hq : Get values "q" ≠ "") :
    ∃ request : SearchRequest,
      (SearchProducts search values).1 = [(Get values "q", request)] ∧
      ∀ result : Value, search (Get values "q") request = .ok result →
        ∃ totalHits : Int,
          (SearchProducts search values).2
            = { statusCode := 200,
                body := .success
                  { Success := true, Message := "Search completed successfully",
                    Data := .searchResult
                      { Hits := [], TotalHits := totalHits, Processing := false,
                        Query := Get values "q", Limit := request.Limit,
                        Offset := request.Offset } } } ∧
          (∀ (fields : List (String × Value)) (hitsList : List Value),
            result = .object fields → fields.lookup "hits" = some (.array hitsList) →
            totalHits = Int.ofNat hitsList.length) ∧
          (hitsOf result = none → totalHits = 0) := by
  refine ⟨_, SearchProducts_calls search values hq, ?_⟩
  intro result hres
  refine ⟨_, SearchProducts_ok search values hq result hres, ?_, ?_⟩
  · intro fields hitsList hobj hlook
    have hh : hitsOf result = some hitsList := by
      rw [hobj]
      simp only [hitsOf, hlook]
    rw [hh]
  · intro hnone
    rw [hnone]

theorem search_success_response_witness :
    (SearchProducts threeHitIndex [("q", "glue")]).2
      = { statusCode := 200,
          body := .success
            { Success := true, Message := "Search completed successfully",
              Data := .searchResult
                { Hits := [], TotalHits := 3, Processing := false,
                  Query := "glue", Limit := 20, Offset := 0 } } } := by
  obtain ⟨request, hcalls, hall⟩ :=
    search_success_response threeHitIndex [("q", "glue")] (by decide)
  have hreq : request = { Filter := none, Limit := 20, Offset := 0 } := by
    have h0 : (SearchProducts threeHitIndex [("q", "glue")]).1
        = [("glue", { Filter := none, Limit := 20, Offset := 0 })] := rfl
    rw [h0] at hcalls
    injection hcalls with hhead _
    injection hhead with _ hr
    exact hr.symm
  obtain ⟨totalHits, hresp, hlen, _⟩ := hall _ rfl
  have h3 : totalHits = 3 := hlen _ _ rfl rfl
  rw [hresp, h3, hreq]
  rfl

end Meili
